import Mathlib

/-!
# Verification of the OCR worker's job-claiming and retry engine

Shallow embedding of the worker core found in
`workers/ocr/src/kiro_ocr_worker` (main.py, db.py, config.py) and the
toggle variant `_workers/ocr/src/ocr_worker/db.py` /
`workers/ocr/src/ocr_worker/config.py`.

The relational table `ocr_jobs` is modelled as a list of rows; every SQL
`UPDATE ... WHERE id = %s` becomes a map over the list touching the rows
whose `id` matches.  The psycopg connection (autocommit = False) is
modelled by explicit state passing: `process_once` receives the committed
table, runs the claim and the settlement on an uncommitted copy, and
`commit` / `rollback` are expressed by which table the function returns.
External collaborators (image fetch + Vision OCR, LISTEN/NOTIFY delivery,
the wall clock) are oracle parameters.
-/

namespace OcrWorker

/-- Job status column: `queued`, `processing`, `completed`, `failed`. -/
inductive Status
  | queued
  | processing
  | completed
  | failed
deriving DecidableEq, Repr

/-- The JSON result envelope built by `mark_completed` in db.py:
`{"ocrText": …, "extractedItems": [], "confidence": …, "flaggedFields": [],
"processingTime": …, "aiParsingUsed": False}`.  The confidence float is
stored unchanged (`float(confidence)` on a float is the identity), modelled
as a rational. -/
structure ResultEnvelope where
  ocrText : String
  extractedItems : List String
  confidence : Rat
  flaggedFields : List String
  processingTime : Int
  aiParsingUsed : Bool
deriving DecidableEq, Repr

/-- A persisted row of the `ocr_jobs` table.  `retry_count` is nullable in
the schema (the code wraps it in `COALESCE(retry_count, 0)`), and the
error message is a sequence of code points (Python string slicing is by
code point). -/
structure JobRow where
  id : String
  user_id : String
  image_url : String
  image_hash : String
  status : Status
  retry_count : Option Nat
  result : Option ResultEnvelope
  error_message : Option (List Char)
  processing_time : Option Int
  created_at : Nat
  completed_at : Option Nat
deriving DecidableEq, Repr

/-- The `ocr_jobs` table. -/
abbrev Table := List JobRow

/-- `UPDATE ocr_jobs SET … WHERE id = %s`: apply `f` to every row whose
`id` equals `jid`. -/
def updateRow (t : Table) (jid : String) (f : JobRow → JobRow) : Table :=
  t.map fun r => if r.id = jid then f r else r

/-- `ORDER BY created_at ASC … LIMIT 1` over a candidate list: the first
row (in table order) among those with minimal `created_at`.  SQL leaves
ties unspecified; the model resolves them deterministically by table
order. -/
def minByCreated : List JobRow → Option JobRow
  | [] => none
  | r :: rs =>
    match minByCreated rs with
    | none => some r
    | some b => if r.created_at ≤ b.created_at then some r else some b

/-- The row view returned by `try_claim_queued_job`
(`RETURNING id, user_id, image_url, image_hash, status,
COALESCE(retry_count, 0)`), with the post-update status. -/
structure OCRJobRow where
  id : String
  user_id : String
  image_url : String
  image_hash : String
  status : Status
  retry_count : Nat
deriving DecidableEq, Repr

/-- db.py `try_claim_queued_job`: atomically pick the oldest `queued` row,
set its status to `processing`, and return the updated row view; `none`
plus the unchanged table when no queued row exists. -/
def try_claim_queued_job (t : Table) : Option OCRJobRow × Table :=
  match minByCreated (t.filter fun r => r.status = Status.queued) with
  | none => (none, t)
  | some r =>
    (some { id := r.id
            user_id := r.user_id
            image_url := r.image_url
            image_hash := r.image_hash
            status := Status.processing
            retry_count := r.retry_count.getD 0 },
     updateRow t r.id fun x => { x with status := Status.processing })

/-- db.py `mark_completed`: set status `completed`, store the result
envelope, the processing time, and `completed_at = NOW()` (the clock value
`now` is an oracle). -/
def mark_completed (t : Table) (jid : String) (ocr_text : String)
    (processing_ms : Int) (confidence : Rat) (now : Nat) : Table :=
  updateRow t jid fun r =>
    { r with
      status := Status.completed
      result := some { ocrText := ocr_text
                       extractedItems := []
                       confidence := confidence
                       flaggedFields := []
                       processingTime := processing_ms
                       aiParsingUsed := false }
      processing_time := some processing_ms
      completed_at := some now }

/-- db.py `mark_failed`: set status `failed` and store
`error_message[:2000]`. -/
def mark_failed (t : Table) (jid : String) (error_message : List Char) : Table :=
  updateRow t jid fun r =>
    { r with
      status := Status.failed
      error_message := some (error_message.take 2000) }

/-- db.py `increment_retry`:
`SET retry_count = COALESCE(retry_count, 0) + 1 WHERE id = %s RETURNING
retry_count`, then `int(row[0]) if row and row[0] is not None else 0`. -/
def increment_retry (t : Table) (jid : String) : Nat × Table :=
  let t' := updateRow t jid fun r =>
    { r with retry_count := some (r.retry_count.getD 0 + 1) }
  match t'.find? fun r => r.id = jid with
  | some r => (r.retry_count.getD 0, t')
  | none => (0, t')

/-- db.py `requeue_job`: `SET status = 'queued' WHERE id = %s`. -/
def requeue_job (t : Table) (jid : String) : Table :=
  updateRow t jid fun r => { r with status := Status.queued }

/-! ## The per-cycle processor (main.py `process_once`)

`fetch_image_bytes` + `run_document_text_detection` form one external
extraction attempt: it either yields text and a confidence, or raises with
some diagnostic string (`str(e)` of the exception). -/

/-- Outcome of the external fetch-and-extract attempt (an oracle). -/
inductive OcrOutcome
  | ok (text : String) (confidence : Rat)
  | err (msg : List Char)
deriving DecidableEq, Repr

/-- Oracle inputs of one `process_once` cycle: the extraction outcome, a
flag saying whether the storage layer raises while persisting the retry
decision (the inner `try` of main.py), and the three clock reads
(`int(time.time() * 1000)` before and after the attempt, and the `NOW()`
used for `completed_at`). -/
structure ProcessOracle where
  outcome : OcrOutcome
  settlementFails : Bool
  startMs : Nat
  endMs : Nat
  now : Nat
deriving DecidableEq, Repr

/-- main.py `process_once`.  The connection is non-autocommit, so the
claim UPDATE, the completion (or the retry decision) live in one
uncommitted transaction until `conn.commit()`:

* no claimed job: return `False`, table untouched;
* success: `mark_completed` then `conn.commit()` commits claim and
  completion together;
* extraction failure: `conn.rollback()` discards the uncommitted claim,
  then `increment_retry` and either `mark_failed` (new count ≥
  `max_retries`) or `requeue_job`, then `conn.commit()`;
* storage failure inside that settlement: the inner `except` rolls back,
  leaving the table at its last committed state — the input table.

`max_retries` is an `Int` because `load_config` parses it from the
environment with Python `int()`, which admits negative values. -/
def process_once (t : Table) (max_retries : Int) (o : ProcessOracle) :
    Bool × Table :=
  match try_claim_queued_job t with
  | (none, _) => (false, t)
  | (some job, pending) =>
    match o.outcome with
    | OcrOutcome.ok text conf =>
      let elapsed : Int := (o.endMs : Int) - (o.startMs : Int)
      (true, mark_completed pending job.id text elapsed conf o.now)
    | OcrOutcome.err msg =>
      if o.settlementFails then
        (true, t)
      else
        let inc := increment_retry t job.id
        if (inc.1 : Int) ≥ max_retries then
          (true, mark_failed inc.2 job.id msg)
        else
          (true, requeue_job inc.2 job.id)

/-! ## The wake channel (`listen_for_jobs`)

Two variants exist in the repository.  The toggle variant
(`_workers/ocr/src/ocr_worker/db.py`) wraps `LISTEN` and the
notification wait in a `try` and falls back to `time.sleep`; the
non-toggle variant (`kiro_ocr_worker/db.py`) guards only the
notification wait.  Delivery of a notification is an oracle. -/

/-- What the LISTEN/NOTIFY transport does during one wait (an oracle):
the `LISTEN` statement raises, a notification arrives `ms` milliseconds
in, or no notification arrives at all. -/
inductive SubOutcome
  | listenRaises
  | notifyAfter (ms : Nat)
  | noNotify
deriving DecidableEq, Repr

/-- Toggle variant `listen_for_jobs(conn, poll_interval_ms, use_notify)`:
returns the milliseconds the call blocks.  With `use_notify`, a
successful subscription waits on the notification queue with timeout
`max(poll_interval_ms, 250)` ms; a notification inside the timeout
returns at once, a timeout raises `Empty` which the `except` catches and
then falls through to the sleep; a failing `LISTEN` is caught the same
way.  Without `use_notify` (or after the catch) it sleeps
`max(poll_interval_ms, 250)` ms. -/
def listen_for_jobs_toggle (poll_interval_ms : Nat) (use_notify : Bool)
    (ev : SubOutcome) : Nat :=
  if use_notify then
    match ev with
    | SubOutcome.listenRaises => max poll_interval_ms 250
    | SubOutcome.notifyAfter ms =>
      if ms ≤ max poll_interval_ms 250 then ms
      else max poll_interval_ms 250 + max poll_interval_ms 250
    | SubOutcome.noNotify => max poll_interval_ms 250 + max poll_interval_ms 250
  else max poll_interval_ms 250

/-- Non-toggle variant (kiro_ocr_worker/db.py `listen_for_jobs`): `LISTEN`
runs outside any `try`, so its failure propagates (`Except.error`); the
notification wait uses timeout `max(poll_interval_ms, 1000)` ms and its
timeout exception is caught. -/
def listen_for_jobs_kiro (poll_interval_ms : Nat) (ev : SubOutcome) :
    Except String Nat :=
  match ev with
  | SubOutcome.listenRaises => Except.error "LISTEN raised"
  | SubOutcome.notifyAfter ms =>
    Except.ok (if ms ≤ max poll_interval_ms 1000 then ms
               else max poll_interval_ms 1000)
  | SubOutcome.noNotify => Except.ok (max poll_interval_ms 1000)

/-! ## Configuration loading (`config.py`, both variants)

The environment is a partial map from variable names to strings.
`_get_int` relies on Python's built-in `int(str)`; its decimal grammar
(optional surrounding whitespace, optional sign, digits with single
underscores between digits) is embedded below. -/

/-- The process environment: `os.getenv`. -/
abbrev Env := String → Option String

/-- The characters Python's `str.strip` / `int()` treat as (ASCII)
whitespace. -/
def isPySpace (c : Char) : Bool :=
  c = ' ' || c = '\t' || c = '\n' || c = '\r' || c = '\x0b' || c = '\x0c'

/-- Value of a digit run as accepted by Python's `int()` after the first
digit: digits, with a single underscore allowed only between two digits.
Returns `none` when the run is malformed. -/
def digitsVal : List Char → Nat → Option Nat
  | [], acc => some acc
  | c :: cs, acc =>
    if c.isDigit then digitsVal cs (acc * 10 + (c.toNat - 48))
    else if c = '_' then
      match cs with
      | [] => none
      | d :: _ => if d.isDigit then digitsVal cs acc else none
    else none

/-- Python's built-in `int()` applied to a string (base 10): strip ASCII
whitespace, optional `+`/`-` sign, then a nonempty digit run; `none`
models `ValueError`. -/
def pyInt (s : String) : Option Int :=
  let l := s.data.dropWhile isPySpace
  let l := ((l.reverse.dropWhile isPySpace).reverse)
  match l with
  | [] => none
  | '+' :: rest =>
    match rest with
    | [] => none
    | d :: _ => if d.isDigit then (digitsVal rest 0).map Int.ofNat else none
  | '-' :: rest =>
    match rest with
    | [] => none
    | d :: _ =>
      if d.isDigit then (digitsVal rest 0).map fun n => -(n : Int) else none
  | d :: _ => if d.isDigit then (digitsVal l 0).map Int.ofNat else none

/-- config.py `_get_int`: `int(os.getenv(env_key, str(default)))`, with
`ValueError` giving back the default. -/
def pyGetInt (env : Env) (env_key : String) (default : Int) : Int :=
  match pyInt ((env env_key).getD (toString default)) with
  | some n => n
  | none => default

/-- kiro_ocr_worker/config.py `WorkerConfig`. -/
structure WorkerConfig where
  database_url : String
  poll_interval_ms : Int
  max_retries : Int
  processing_timeout_ms : Int
deriving DecidableEq, Repr

/-- kiro_ocr_worker/config.py `load_config`: `os.getenv("DATABASE_URL",
"")`; an empty (or absent) value raises `RuntimeError`, otherwise the
three numeric settings are read through `_get_int`. -/
def load_config (env : Env) : Except String WorkerConfig :=
  let database_url := (env "DATABASE_URL").getD ""
  if database_url = "" then
    Except.error "DATABASE_URL is required for OCR worker"
  else
    Except.ok
      { database_url := database_url
        poll_interval_ms := pyGetInt env "WORKER_POLL_INTERVAL_MS" 5000
        max_retries := pyGetInt env "WORKER_MAX_RETRIES" 3
        processing_timeout_ms := pyGetInt env "WORKER_PROCESSING_TIMEOUT_MS" 60000 }

/-- Python `a or b or … or ""` over optional env values: the first
present, non-empty string, else `""`. -/
def firstNonEmpty : List (Option String) → String
  | [] => ""
  | none :: rest => firstNonEmpty rest
  | some s :: rest => if s = "" then firstNonEmpty rest else s

/-- ocr_worker/config.py `WorkerConfig` (adds the notify toggle). -/
structure WorkerConfigToggle where
  database_url : String
  poll_interval_ms : Int
  max_retries : Int
  processing_timeout_ms : Int
  use_notify : Bool
deriving DecidableEq, Repr

/-- ocr_worker/config.py `load_config`: the connection string is the
first non-empty of `DATABASE_URL`, `SUPABASE_DB_URL`, `POSTGRES_URL`
(else raise); `WORKER_USE_NOTIFY` defaults to `"0"` and is compared
against the literal truthy spellings. -/
def load_config_toggle (env : Env) : Except String WorkerConfigToggle :=
  let database_url :=
    firstNonEmpty [env "DATABASE_URL", env "SUPABASE_DB_URL", env "POSTGRES_URL"]
  if database_url = "" then
    Except.error "DATABASE_URL is required for OCR worker"
  else
    Except.ok
      { database_url := database_url
        poll_interval_ms := pyGetInt env "WORKER_POLL_INTERVAL_MS" 5000
        max_retries := pyGetInt env "WORKER_MAX_RETRIES" 3
        processing_timeout_ms := pyGetInt env "WORKER_PROCESSING_TIMEOUT_MS" 60000
        use_notify :=
          ["1", "true", "TRUE", "yes", "YES"].contains
            ((env "WORKER_USE_NOTIFY").getD "0") }

/-! ## Helper lemmas -/

theorem minByCreated_eq_none_iff {l : List JobRow} :
    minByCreated l = none ↔ l = [] := by
  cases l with
  | nil => simp [minByCreated]
  | cons r rs =>
    simp only [minByCreated]
    constructor
    · intro h
      cases hm : minByCreated rs with
      | none => rw [hm] at h; exact absurd h (by simp)
      | some b =>
        rw [hm] at h
        by_cases hc : r.created_at ≤ b.created_at <;> simp [hc] at h
    · intro h; exact absurd h (by simp)

theorem minByCreated_mem : ∀ {l : List JobRow} {r : JobRow},
    minByCreated l = some r → r ∈ l := by
  intro l
  induction l with
  | nil => intro r h; simp [minByCreated] at h
  | cons a as ih =>
    intro r h
    simp only [minByCreated] at h
    cases hm : minByCreated as with
    | none =>
      rw [hm] at h
      simp only [Option.some.injEq] at h
      exact h ▸ List.mem_cons_self a as
    | some b =>
      rw [hm] at h
      by_cases hc : a.created_at ≤ b.created_at
      · simp only [hc, if_true, Option.some.injEq] at h
        exact h ▸ List.mem_cons_self a as
      · simp only [hc, if_false, Option.some.injEq] at h
        exact h ▸ List.mem_cons_of_mem a (ih hm)

theorem minByCreated_min : ∀ {l : List JobRow} {r : JobRow},
    minByCreated l = some r → ∀ q ∈ l, r.created_at ≤ q.created_at := by
  intro l
  induction l with
  | nil => intro r h; simp [minByCreated] at h
  | cons a as ih =>
    intro r h q hq
    simp only [minByCreated] at h
    cases hm : minByCreated as with
    | none =>
      rw [hm] at h
      injection h with h
      subst h
      have has : as = [] := minByCreated_eq_none_iff.mp hm
      subst has
      rcases List.mem_cons.mp hq with hqa | hqn
      · rw [hqa]
      · exact absurd hqn (by simp)
    | some b =>
      rw [hm] at h
      by_cases hc : a.created_at ≤ b.created_at
      · simp only [hc, if_true, Option.some.injEq] at h
        subst h
        rcases List.mem_cons.mp hq with hqa | hqn
        · rw [hqa]
        · exact le_trans hc (ih hm q hqn)
      · simp only [hc, if_false, Option.some.injEq] at h
        subst h
        rcases List.mem_cons.mp hq with hqa | hqn
        · rw [hqa]; exact le_of_not_le hc
        · exact ih hm q hqn

theorem minByCreated_eq_of_strict_min {l : List JobRow} {b x : JobRow}
    (hb : minByCreated l = some b) (hx : x ∈ l)
    (hlt : ∀ q ∈ l, q ≠ x → x.created_at < q.created_at) : b = x := by
  by_cases hbx : b = x
  · exact hbx
  · have h1 := hlt b (minByCreated_mem hb) hbx
    have h2 := minByCreated_min hb x hx
    exact absurd h1 (not_lt.mpr h2)

theorem find?_map_of_id_pres (t : Table) (g : JobRow → JobRow)
    (hg : ∀ r, (g r).id = r.id) (rid : String) :
    (t.map g).find? (fun x => x.id = rid)
      = (t.find? (fun x => x.id = rid)).map g := by
  rw [List.find?_map]
  have hp : ((fun x : JobRow => decide (x.id = rid)) ∘ g)
      = (fun x : JobRow => decide (x.id = rid)) := by
    funext x
    simp [Function.comp, hg x]
  rw [hp]

theorem updateRow_id_pres (jid : String) (f : JobRow → JobRow)
    (hf : ∀ r, (f r).id = r.id) (r : JobRow) :
    ((fun x => if x.id = jid then f x else x) r).id = r.id := by
  by_cases h : r.id = jid <;> simp [h, hf r]

theorem find?_updateRow (t : Table) (jid rid : String) (f : JobRow → JobRow)
    (hf : ∀ r, (f r).id = r.id) :
    (updateRow t jid f).find? (fun x => x.id = rid)
      = (t.find? (fun x => x.id = rid)).map
          (fun r => if r.id = jid then f r else r) := by
  unfold updateRow
  exact find?_map_of_id_pres t _ (updateRow_id_pres jid f hf) rid

theorem map_id_updateRow {t : Table} {jid : String} {f : JobRow → JobRow}
    (hf : ∀ r, (f r).id = r.id) :
    (updateRow t jid f).map JobRow.id = t.map JobRow.id := by
  unfold updateRow
  rw [List.map_map]
  exact List.map_congr_left fun r _ => updateRow_id_pres jid f hf r

theorem find?_eq_of_mem_nodup : ∀ {t : Table} {r : JobRow},
    (t.map JobRow.id).Nodup → r ∈ t →
    t.find? (fun x => x.id = r.id) = some r := by
  intro t
  induction t with
  | nil => intro r _ hr; exact absurd hr (by simp)
  | cons a as ih =>
    intro r hn hr
    rcases List.mem_cons.mp hr with hra | hrn
    · subst hra
      simp [List.find?]
    · have hne : ¬a.id = r.id := by
        intro hid
        have : r.id ∈ as.map JobRow.id := List.mem_map_of_mem JobRow.id hrn
        rw [List.map_cons, List.nodup_cons] at hn
        exact hn.1 (hid ▸ this)
      have hn' : (as.map JobRow.id).Nodup := by
        rw [List.map_cons, List.nodup_cons] at hn
        exact hn.2
      have hpa : (fun x : JobRow => decide (x.id = r.id)) a = false := by
        simp [hne]
      rw [List.find?_cons_of_neg _ (by simp [hpa])]
      exact ih hn' hrn

theorem eq_of_mem_of_id_eq {t : Table} {a b : JobRow}
    (hn : (t.map JobRow.id).Nodup) (ha : a ∈ t) (hb : b ∈ t)
    (h : a.id = b.id) : a = b := by
  have h1 := find?_eq_of_mem_nodup hn ha
  have h2 := find?_eq_of_mem_nodup hn hb
  rw [h] at h1
  rw [h1] at h2
  exact Option.some_inj.mp h2

/-- Unfolding of a successful claim: the selected row is a queued row of
minimal `created_at`, the returned view is built from it, and the new
table sets exactly the rows with its id to `processing`. -/
theorem try_claim_eq_some {t : Table} {job : OCRJobRow} {t' : Table}
    (h : try_claim_queued_job t = (some job, t')) :
    ∃ r ∈ t, r.status = Status.queued ∧
      job = { id := r.id, user_id := r.user_id, image_url := r.image_url,
              image_hash := r.image_hash, status := Status.processing,
              retry_count := r.retry_count.getD 0 } ∧
      (∀ q ∈ t, q.status = Status.queued → r.created_at ≤ q.created_at) ∧
      t' = updateRow t r.id (fun x => { x with status := Status.processing }) := by
  unfold try_claim_queued_job at h
  cases hm : minByCreated (t.filter fun r => r.status = Status.queued) with
  | none => rw [hm] at h; exact absurd h (by simp)
  | some r =>
    rw [hm] at h
    have hmem := minByCreated_mem hm
    have hrf := List.mem_filter.mp hmem
    have hq : r.status = Status.queued := by
      have := hrf.2
      simpa using this
    refine ⟨r, hrf.1, hq, ?_, ?_, ?_⟩
    · have := congrArg Prod.fst h
      simpa using this.symm
    · intro q hqt hqs
      exact minByCreated_min hm q (List.mem_filter.mpr ⟨hqt, by simp [hqs]⟩)
    · have := congrArg Prod.snd h
      simpa using this.symm

/-- Unfolding of a failed claim: the table is untouched and no queued row
exists. -/
theorem try_claim_eq_none {t : Table}
    (h : (try_claim_queued_job t).1 = none) :
    (try_claim_queued_job t).2 = t ∧ ∀ r ∈ t, r.status ≠ Status.queued := by
  unfold try_claim_queued_job at h ⊢
  cases hm : minByCreated (t.filter fun r => r.status = Status.queued) with
  | none =>
    have hf : t.filter (fun r => r.status = Status.queued) = [] :=
      minByCreated_eq_none_iff.mp hm
    refine ⟨rfl, ?_⟩
    intro r hr hq
    have : r ∈ t.filter (fun x => x.status = Status.queued) :=
      List.mem_filter.mpr ⟨hr, by simp [hq]⟩
    rw [hf] at this
    exact absurd this (by simp)
  | some r => rw [hm] at h; exact absurd h (by simp)

/-- Unfolding of `increment_retry` when a row with the id is found first
in the table: the returned count is the row's coalesced counter plus
one. -/
theorem increment_retry_spec {t : Table} {jid : String} {r : JobRow}
    (hfind : t.find? (fun x => x.id = jid) = some r) :
    increment_retry t jid =
      (r.retry_count.getD 0 + 1,
       updateRow t jid fun x => { x with retry_count := some (x.retry_count.getD 0 + 1) }) := by
  unfold increment_retry
  have hmap := find?_updateRow t jid jid
    (fun x => { x with retry_count := some (x.retry_count.getD 0 + 1) })
    (fun _ => rfl)
  have hrid : r.id = jid := by
    have := List.find?_some hfind
    simpa using this
  simp only [hmap, hfind, Option.map_some]
  simp [hrid]

/-- A row whose id differs from the update key is returned unchanged by
`find?` after an `updateRow`. -/
theorem find?_updateRow_other {t : Table} {jid rid : String}
    {f : JobRow → JobRow} {r : JobRow} (hf : ∀ x, (f x).id = x.id)
    (hfind : t.find? (fun x => x.id = rid) = some r) (hne : r.id ≠ jid) :
    (updateRow t jid f).find? (fun x => x.id = rid) = some r := by
  rw [find?_updateRow t jid rid f hf, hfind]
  simp [hne]

/-- The table produced by `increment_retry`, independent of what the
`RETURNING` fetch sees. -/
theorem increment_retry_snd (t : Table) (jid : String) :
    (increment_retry t jid).2
      = updateRow t jid fun x =>
          { x with retry_count := some (x.retry_count.getD 0 + 1) } := by
  simp only [increment_retry]
  split <;> rfl

/-- `process_once` never changes the ids of the table. -/
theorem map_id_process_once (t : Table) (mr : Int) (o : ProcessOracle) :
    ((process_once t mr o).2).map JobRow.id = t.map JobRow.id := by
  rcases hcl : try_claim_queued_job t with ⟨a, t₁⟩
  cases a with
  | none => simp only [process_once, hcl]
  | some job =>
    obtain ⟨qr, _, _, hjob, _, ht₁⟩ := try_claim_eq_some hcl
    cases houtcome : o.outcome with
    | ok text conf =>
      simp only [process_once, hcl, houtcome, mark_completed]
      refine (map_id_updateRow ?_).trans ?_
      · exact fun _ => rfl
      · rw [ht₁]
        refine map_id_updateRow ?_
        exact fun _ => rfl
    | err msg =>
      cases hsf : o.settlementFails with
      | true => simp only [process_once, hcl, houtcome, hsf, if_true]
      | false =>
        simp only [process_once, hcl, houtcome, hsf, Bool.false_eq_true, if_false]
        by_cases hcond : (((increment_retry t job.id).1 : Int) ≥ mr)
        · rw [if_pos hcond]
          simp only [mark_failed]
          refine (map_id_updateRow ?_).trans ?_
          · exact fun _ => rfl
          · rw [increment_retry_snd]
            refine map_id_updateRow ?_
            exact fun _ => rfl
        · rw [if_neg hcond]
          simp only [requeue_job]
          refine (map_id_updateRow ?_).trans ?_
          · exact fun _ => rfl
          · rw [increment_retry_snd]
            refine map_id_updateRow ?_
            exact fun _ => rfl

/-- Stability of `failed`: no branch of the worker cycle touches a row
that is already `failed` (the claim step only selects `queued` rows, and
every update targets the claimed id). -/
theorem failed_row_stable (t : Table) (mr : Int) (o : ProcessOracle)
    {jid : String} {r : JobRow}
    (hn : (t.map JobRow.id).Nodup)
    (hfind : t.find? (fun x => x.id = jid) = some r)
    (hst : r.status = Status.failed) :
    (process_once t mr o).2.find? (fun x => x.id = jid) = some r := by
  have hrid : r.id = jid := by simpa using List.find?_some hfind
  have hrmem : r ∈ t := List.mem_of_find?_eq_some hfind
  rcases hcl : try_claim_queued_job t with ⟨a, t₁⟩
  cases a with
  | none => simp only [process_once, hcl]; exact hfind
  | some job =>
    obtain ⟨qr, hqmem, hqst, hjob, _, ht₁⟩ := try_claim_eq_some hcl
    have hne : r.id ≠ qr.id := by
      intro he
      have : qr = r := eq_of_mem_of_id_eq hn hqmem hrmem he.symm
      rw [this, hst] at hqst
      exact absurd hqst (by simp)
    have hjid : job.id = qr.id := by rw [hjob]
    cases houtcome : o.outcome with
    | ok text conf =>
      simp only [process_once, hcl, houtcome, mark_completed]
      rw [hjid, ht₁]
      exact find?_updateRow_other (fun _ => rfl)
        (find?_updateRow_other (fun _ => rfl) hfind hne) hne
    | err msg =>
      cases hsf : o.settlementFails with
      | true => simp only [process_once, hcl, houtcome, hsf, if_true]; exact hfind
      | false =>
        simp only [process_once, hcl, houtcome, hsf, Bool.false_eq_true, if_false]
        by_cases hcond : (((increment_retry t job.id).1 : Int) ≥ mr)
        · rw [if_pos hcond]
          simp only [mark_failed]
          rw [hjid, increment_retry_snd]
          exact find?_updateRow_other (fun _ => rfl)
            (find?_updateRow_other (fun _ => rfl) hfind hne) hne
        · rw [if_neg hcond]
          simp only [requeue_job]
          rw [hjid, increment_retry_snd]
          exact find?_updateRow_other (fun _ => rfl)
            (find?_updateRow_other (fun _ => rfl) hfind hne) hne

/-- Stability of `failed` over any sequence of further worker cycles. -/
theorem failed_row_stable_iter (os : List ProcessOracle) (t : Table)
    (mr : Int) {jid : String} {r : JobRow}
    (hn : (t.map JobRow.id).Nodup)
    (hfind : t.find? (fun x => x.id = jid) = some r)
    (hst : r.status = Status.failed) :
    (os.foldl (fun u o₂ => (process_once u mr o₂).2) t).find?
        (fun x => x.id = jid) = some r := by
  induction os generalizing t with
  | nil => exact hfind
  | cons o os ih =>
    simp only [List.foldl_cons]
    exact ih ((process_once t mr o).2)
      (by rw [map_id_process_once]; exact hn)
      (failed_row_stable t mr o hn hfind hst)

/-- The row with the update key, after an `updateRow` with an
id-preserving function, is the image of the old row. -/
theorem find?_updateRow_self (f : JobRow → JobRow) {t : Table} {jid : String}
    {r : JobRow} (hf : ∀ x, (f x).id = x.id)
    (hfind : t.find? (fun x => x.id = jid) = some r) :
    (updateRow t jid f).find? (fun x => x.id = jid) = some (f r) := by
  rw [find?_updateRow t jid jid f hf, hfind]
  have hrid : r.id = jid := by simpa using List.find?_some hfind
  simp [hrid]

/-- Effect of the claim's `SET status = 'processing'` on the claimed id. -/
theorem find?_claim_update {t : Table} {jid : String} {r : JobRow}
    (hfind : t.find? (fun x => x.id = jid) = some r) :
    (updateRow t jid fun x => { x with status := Status.processing }).find?
        (fun x => x.id = jid)
      = some { r with status := Status.processing } :=
  find?_updateRow_self (fun x => { x with status := Status.processing })
    (fun _ => rfl) hfind

/-- Effect of `mark_completed` on the completed id. -/
theorem find?_mark_completed {t : Table} {jid : String} {r : JobRow}
    (text : String) (ms : Int) (conf : Rat) (now : Nat)
    (hfind : t.find? (fun x => x.id = jid) = some r) :
    (mark_completed t jid text ms conf now).find? (fun x => x.id = jid)
      = some { r with
                status := Status.completed
                result := some { ocrText := text, extractedItems := [],
                                 confidence := conf, flaggedFields := [],
                                 processingTime := ms, aiParsingUsed := false }
                processing_time := some ms
                completed_at := some now } :=
  find?_updateRow_self _ (fun _ => rfl) hfind

/-! ## Claim theorems -/

/-- Claim C3: `claim_next` selects a queued job with the smallest
`created_at`, transitions exactly that row to `processing`, returns its
full row view, and returns `none` exactly when no queued job exists;
rows with other ids are never modified. -/
theorem claim_next_selects_oldest_queued (t : Table)
    (hn : (t.map JobRow.id).Nodup) :
    ((try_claim_queued_job t).1 = none →
        (try_claim_queued_job t).2 = t ∧ ∀ r ∈ t, r.status ≠ Status.queued)
    ∧ ((∃ r ∈ t, r.status = Status.queued) →
        ((try_claim_queued_job t).1.isSome = true))
    ∧ (∀ job, (try_claim_queued_job t).1 = some job →
        ∃ r ∈ t, r.status = Status.queued ∧
          job = { id := r.id, user_id := r.user_id, image_url := r.image_url,
                  image_hash := r.image_hash, status := Status.processing,
                  retry_count := r.retry_count.getD 0 } ∧
          (∀ q ∈ t, q.status = Status.queued → r.created_at ≤ q.created_at) ∧
          (try_claim_queued_job t).2.find? (fun x => x.id = r.id)
            = some { r with status := Status.processing } ∧
          (∀ q ∈ t, q.id ≠ r.id → q ∈ (try_claim_queued_job t).2) ∧
          (try_claim_queued_job t).2.map JobRow.id = t.map JobRow.id) := by
  refine ⟨?_, ?_, ?_⟩
  · intro h
    exact try_claim_eq_none h
  · rintro ⟨r, hr, hq⟩
    cases hcl : (try_claim_queued_job t).1 with
    | none => exact absurd hq ((try_claim_eq_none hcl).2 r hr)
    | some j => simp [hcl]
  · intro job hcl1
    have hpair : try_claim_queued_job t
        = (some job, (try_claim_queued_job t).2) := by
      rw [← hcl1]
    obtain ⟨r, hr, hq, hjob, hmin, ht'⟩ := try_claim_eq_some hpair
    have hfind : t.find? (fun x => x.id = r.id) = some r :=
      find?_eq_of_mem_nodup hn hr
    refine ⟨r, hr, hq, hjob, hmin, ?_, ?_, ?_⟩
    · rw [ht']
      exact find?_claim_update hfind
    · intro q hqt hqne
      rw [ht']
      have hmm := List.mem_map_of_mem
        (fun x => if x.id = r.id then { x with status := Status.processing }
                  else x) hqt
      simpa [updateRow, hqne] using hmm
    · rw [ht']
      exact map_id_updateRow (fun _ => rfl)

/-- Concrete table exercising C3. -/
def c3Table : Table :=
  [{ id := "a", user_id := "u", image_url := "i", image_hash := "h",
     status := Status.queued, retry_count := none, result := none,
     error_message := none, processing_time := none, created_at := 7,
     completed_at := none }]

/-- Witness for C3 at a concrete one-row table. -/
theorem claim_next_selects_oldest_queued_witness :
    ∃ r ∈ c3Table, r.status = Status.queued ∧
      ({ id := "a", user_id := "u", image_url := "i", image_hash := "h",
         status := Status.processing, retry_count := 0 } : OCRJobRow)
        = { id := r.id, user_id := r.user_id, image_url := r.image_url,
            image_hash := r.image_hash, status := Status.processing,
            retry_count := r.retry_count.getD 0 } ∧
      (∀ q ∈ c3Table, q.status = Status.queued → r.created_at ≤ q.created_at) ∧
      (try_claim_queued_job c3Table).2.find? (fun x => x.id = r.id)
        = some { r with status := Status.processing } ∧
      (∀ q ∈ c3Table, q.id ≠ r.id → q ∈ (try_claim_queued_job c3Table).2) ∧
      (try_claim_queued_job c3Table).2.map JobRow.id
        = c3Table.map JobRow.id :=
  (claim_next_selects_oldest_queued c3Table (by decide)).2.2 _ rfl



/-- Claim C1: for every claimed job whose processing attempt fails and
whose incremented retry counter is still strictly below `max_retries`,
after the settlement of that attempt the job's status is `queued` and its
`retry_count` has increased by exactly 1 (a missing/null prior counter
being treated as zero). -/
theorem retry_below_max_requeues_and_increments
    (t : Table) (max_retries : Int) (o : ProcessOracle)
    (job : OCRJobRow) (t₁ : Table) (msg : List Char)
    (hn : (t.map JobRow.id).Nodup)
    (h : try_claim_queued_job t = (some job, t₁))
    (ho : o.outcome = OcrOutcome.err msg)
    (hsf : o.settlementFails = false)
    (hlt : (job.retry_count : Int) + 1 < max_retries) :
    ∃ r ∈ t, r.id = job.id ∧ r.status = Status.queued ∧
      job.retry_count = r.retry_count.getD 0 ∧
      (process_once t max_retries o).2.find? (fun x => x.id = job.id)
        = some { r with status := Status.queued,
                        retry_count := some (job.retry_count + 1) } := by
  obtain ⟨r, hr, hq, hjob, hmin, ht'⟩ := try_claim_eq_some h
  have hid : job.id = r.id := by rw [hjob]
  have hrc : job.retry_count = r.retry_count.getD 0 := by rw [hjob]
  have hfind : t.find? (fun x => x.id = r.id) = some r :=
    find?_eq_of_mem_nodup hn hr
  have hinc := increment_retry_spec hfind
  have hcond : ¬((((r.retry_count.getD 0 + 1 : Nat)) : Int) ≥ max_retries) := by
    rw [hrc] at hlt
    push_cast
    omega
  have hproc : process_once t max_retries o
      = (true, requeue_job
          (updateRow t r.id fun x =>
            { x with retry_count := some (x.retry_count.getD 0 + 1) }) r.id) := by
    simp only [process_once, h, ho, hsf, hid, hinc, Bool.false_eq_true, if_false,
      if_neg hcond]
  refine ⟨r, hr, hid.symm, hq, hrc, ?_⟩
  rw [hproc, hid]
  simp only [requeue_job]
  rw [find?_updateRow
        (updateRow t r.id fun x =>
          { x with retry_count := some (x.retry_count.getD 0 + 1) })
        r.id r.id (fun x => { x with status := Status.queued }) (fun _ => rfl),
      find?_updateRow t r.id r.id
        (fun x => { x with retry_count := some (x.retry_count.getD 0 + 1) })
        (fun _ => rfl),
      hfind]
  simp [hrc]

/-- Claim C2: a claimed job whose processing attempt fails and whose
incremented retry counter reaches `max_retries` is marked `failed` with
the (truncated) stringified error as its message, and `failed` is
terminal: no further worker cycle — in particular the claim step, which
selects only `queued` rows — ever changes that row again. -/
theorem retry_at_max_marks_failed_terminal
    (t : Table) (max_retries : Int) (o : ProcessOracle)
    (job : OCRJobRow) (t₁ : Table) (msg : List Char)
    (hn : (t.map JobRow.id).Nodup)
    (h : try_claim_queued_job t = (some job, t₁))
    (ho : o.outcome = OcrOutcome.err msg)
    (hsf : o.settlementFails = false)
    (hge : ((job.retry_count : Int) + 1) ≥ max_retries) :
    ∃ r ∈ t, r.id = job.id ∧ r.status = Status.queued ∧
      (process_once t max_retries o).2.find? (fun x => x.id = job.id)
        = some { r with status := Status.failed,
                        retry_count := some (job.retry_count + 1),
                        error_message := some (msg.take 2000) } ∧
      (∀ os : List ProcessOracle,
        (os.foldl (fun u o₂ => (process_once u max_retries o₂).2)
            (process_once t max_retries o).2).find? (fun x => x.id = job.id)
          = some { r with status := Status.failed,
                          retry_count := some (job.retry_count + 1),
                          error_message := some (msg.take 2000) }) ∧
      (∀ j u,
        try_claim_queued_job (process_once t max_retries o).2 = (some j, u) →
        j.id ≠ job.id) := by
  obtain ⟨r, hr, hq, hjob, hmin, ht'⟩ := try_claim_eq_some h
  have hid : job.id = r.id := by rw [hjob]
  have hrc : job.retry_count = r.retry_count.getD 0 := by rw [hjob]
  have hfind : t.find? (fun x => x.id = r.id) = some r :=
    find?_eq_of_mem_nodup hn hr
  have hinc := increment_retry_spec hfind
  have hcond : (((r.retry_count.getD 0 + 1 : Nat)) : Int) ≥ max_retries := by
    rw [hrc] at hge
    push_cast at hge ⊢
    omega
  have hproc : process_once t max_retries o
      = (true, mark_failed
          (updateRow t r.id fun x =>
            { x with retry_count := some (x.retry_count.getD 0 + 1) })
          r.id msg) := by
    simp only [process_once, h, ho, hsf, hid, hinc, Bool.false_eq_true, if_false,
      if_pos hcond]
  have hfix : (process_once t max_retries o).2.find? (fun x => x.id = job.id)
      = some { r with status := Status.failed,
                      retry_count := some (job.retry_count + 1),
                      error_message := some (msg.take 2000) } := by
    rw [hproc, hid]
    simp only [mark_failed]
    rw [find?_updateRow
          (updateRow t r.id fun x =>
            { x with retry_count := some (x.retry_count.getD 0 + 1) })
          r.id r.id
          (fun x => { x with status := Status.failed,
                             error_message := some (msg.take 2000) })
          (fun _ => rfl),
        find?_updateRow t r.id r.id
          (fun x => { x with retry_count := some (x.retry_count.getD 0 + 1) })
          (fun _ => rfl),
        hfind]
    simp [hrc]
  have hsn : (((process_once t max_retries o).2).map JobRow.id).Nodup := by
    rw [map_id_process_once]
    exact hn
  refine ⟨r, hr, hid.symm, hq, hfix, ?_, ?_⟩
  · intro os
    exact failed_row_stable_iter os _ max_retries hsn hfix rfl
  · intro j u hclaim2 hje
    obtain ⟨qr', hqm, hqs, hjview, _, _⟩ := try_claim_eq_some hclaim2
    have hjid' : j.id = qr'.id := by rw [hjview]
    have hrFmem : ({ r with
                      status := Status.failed,
                      retry_count := some (job.retry_count + 1),
                      error_message := some (msg.take 2000) } : JobRow)
        ∈ (process_once t max_retries o).2 :=
      List.mem_of_find?_eq_some hfix
    have heq : qr' = { r with
                        status := Status.failed,
                        retry_count := some (job.retry_count + 1),
                        error_message := some (msg.take 2000) } :=
      eq_of_mem_of_id_eq hsn hqm hrFmem (by rw [← hjid', hje, hid])
    rw [heq] at hqs
    exact absurd hqs (by simp)

/-- Concrete one-row queued table for the C1 witness. -/
def c1Table : Table :=
  [{ id := "j1", user_id := "u1", image_url := "url", image_hash := "h",
     status := Status.queued, retry_count := none, result := none,
     error_message := none, processing_time := none, created_at := 0,
     completed_at := none }]

/-- The view returned by claiming `c1Table`. -/
def c1Job : OCRJobRow :=
  { id := "j1", user_id := "u1", image_url := "url", image_hash := "h",
    status := Status.processing, retry_count := 0 }

/-- `c1Table` after the claim update. -/
def c1Claimed : Table :=
  [{ id := "j1", user_id := "u1", image_url := "url", image_hash := "h",
     status := Status.processing, retry_count := none, result := none,
     error_message := none, processing_time := none, created_at := 0,
     completed_at := none }]

/-- Failure oracle whose settlement succeeds. -/
def c1Oracle : ProcessOracle :=
  { outcome := OcrOutcome.err ['b'], settlementFails := false,
    startMs := 0, endMs := 0, now := 0 }

/-- Witness for C1: one queued job with a null counter, `max_retries = 3`,
a failing attempt; afterwards the row is `queued` with `retry_count = 1`. -/
theorem retry_below_max_requeues_and_increments_witness :
    ∃ r ∈ c1Table, r.id = c1Job.id ∧ r.status = Status.queued ∧
      c1Job.retry_count = r.retry_count.getD 0 ∧
      (process_once c1Table 3 c1Oracle).2.find? (fun x => x.id = c1Job.id)
        = some { r with status := Status.queued,
                        retry_count := some (c1Job.retry_count + 1) } :=
  retry_below_max_requeues_and_increments c1Table 3 c1Oracle c1Job c1Claimed
    ['b'] (by decide) (by decide) rfl rfl (by decide)

/-- Concrete one-row queued table for the C2 witness. -/
def c2Table : Table :=
  [{ id := "k1", user_id := "u1", image_url := "url", image_hash := "h",
     status := Status.queued, retry_count := none, result := none,
     error_message := none, processing_time := none, created_at := 0,
     completed_at := none }]

/-- The view returned by claiming `c2Table`. -/
def c2Job : OCRJobRow :=
  { id := "k1", user_id := "u1", image_url := "url", image_hash := "h",
    status := Status.processing, retry_count := 0 }

/-- `c2Table` after the claim update. -/
def c2Claimed : Table :=
  [{ id := "k1", user_id := "u1", image_url := "url", image_hash := "h",
     status := Status.processing, retry_count := none, result := none,
     error_message := none, processing_time := none, created_at := 0,
     completed_at := none }]

/-- Failure oracle whose settlement succeeds. -/
def c2Oracle : ProcessOracle :=
  { outcome := OcrOutcome.err ['b'], settlementFails := false,
    startMs := 0, endMs := 0, now := 0 }

/-- Witness for C2: with `max_retries = 1` the first failure exhausts the
budget; the row is `failed` with the message stored, and stays so. -/
theorem retry_at_max_marks_failed_terminal_witness :
    ∃ r ∈ c2Table, r.id = c2Job.id ∧ r.status = Status.queued ∧
      (process_once c2Table 1 c2Oracle).2.find? (fun x => x.id = c2Job.id)
        = some { r with status := Status.failed,
                        retry_count := some (c2Job.retry_count + 1),
                        error_message := some (List.take 2000 ['b']) } ∧
      (∀ os : List ProcessOracle,
        (os.foldl (fun u o₂ => (process_once u 1 o₂).2)
            (process_once c2Table 1 c2Oracle).2).find?
            (fun x => x.id = c2Job.id)
          = some { r with status := Status.failed,
                          retry_count := some (c2Job.retry_count + 1),
                          error_message := some (List.take 2000 ['b']) }) ∧
      (∀ j u,
        try_claim_queued_job (process_once c2Table 1 c2Oracle).2 = (some j, u) →
        j.id ≠ c2Job.id) :=
  retry_at_max_marks_failed_terminal c2Table 1 c2Oracle c2Job c2Claimed
    ['b'] (by decide) (by decide) rfl rfl (by decide)

/-- Concrete one-row queued table for C4. -/
def c4Table : Table :=
  [{ id := "m1", user_id := "u1", image_url := "url", image_hash := "h",
     status := Status.queued, retry_count := none, result := none,
     error_message := none, processing_time := none, created_at := 0,
     completed_at := none }]

/-- Failure oracle whose settlement also fails at the storage layer. -/
def c4Oracle : ProcessOracle :=
  { outcome := OcrOutcome.err ['b'], settlementFails := true,
    startMs := 0, endMs := 0, now := 0 }

/-- Claim C4 counterexample: with a claimed job, a failing attempt and a
failing settlement, the persisted table is exactly the input table again —
the surviving status of the job is `queued`, not `processing`, because the
uncommitted claim UPDATE is rolled back together with the partial
decision. -/
theorem settlement_failure_keeps_processing_counterexample :
    (try_claim_queued_job c4Table).1.isSome = true ∧
    c4Oracle.settlementFails = true ∧
    process_once c4Table 3 c4Oracle = (true, c4Table) ∧
    (process_once c4Table 3 c4Oracle).2.map JobRow.status = [Status.queued] ∧
    Status.queued ≠ Status.processing := by decide

/-- Claim C4 as amended: if persisting the failure-path retry decision
itself fails, everything since the last commit — the retry decision AND
the claim UPDATE — is rolled back, so the job's persisted status reverts
to its pre-claim `queued` state (not `processing`); no further local retry
happens in this cycle and `process_once` still returns normally, so the
worker loop continues. -/
theorem settlement_failure_rolls_back_cycle
    (t : Table) (max_retries : Int) (o : ProcessOracle)
    (job : OCRJobRow) (t₁ : Table)
    (h : try_claim_queued_job t = (some job, t₁))
    (hmsg : ∃ msg, o.outcome = OcrOutcome.err msg)
    (hsf : o.settlementFails = true) :
    process_once t max_retries o = (true, t) ∧
    ∃ r ∈ t, r.id = job.id ∧ r.status = Status.queued := by
  obtain ⟨msg, ho⟩ := hmsg
  obtain ⟨r, hr, hq, hjob, _, _⟩ := try_claim_eq_some h
  constructor
  · simp only [process_once, h, ho, hsf, if_true]
  · exact ⟨r, hr, by rw [hjob], hq⟩

/-- The view returned by claiming `c4Table`. -/
def c4Job : OCRJobRow :=
  { id := "m1", user_id := "u1", image_url := "url", image_hash := "h",
    status := Status.processing, retry_count := 0 }

/-- `c4Table` after the claim update. -/
def c4Claimed : Table :=
  [{ id := "m1", user_id := "u1", image_url := "url", image_hash := "h",
     status := Status.processing, retry_count := none, result := none,
     error_message := none, processing_time := none, created_at := 0,
     completed_at := none }]

/-- Witness for the amended C4 at the concrete table. -/
theorem settlement_failure_rolls_back_cycle_witness :
    process_once c4Table 3 c4Oracle = (true, c4Table) ∧
    ∃ r ∈ c4Table, r.id = c4Job.id ∧ r.status = Status.queued :=
  settlement_failure_rolls_back_cycle c4Table 3 c4Oracle c4Job c4Claimed
    (by decide) ⟨['b'], rfl⟩ rfl

/-- Claim C6: a successful processing cycle persists a `completed` row
with a completion timestamp and a result envelope holding exactly the
extracted text and confidence produced by the extraction collaborator, an
empty item list, an empty flagged-fields list, `aiParsingUsed = false`,
and a non-negative elapsed time (given that the second clock read is not
before the first). -/
theorem success_persists_completed_result
    (t : Table) (max_retries : Int) (o : ProcessOracle)
    (job : OCRJobRow) (t₁ : Table) (text : String) (conf : Rat)
    (hn : (t.map JobRow.id).Nodup)
    (h : try_claim_queued_job t = (some job, t₁))
    (ho : o.outcome = OcrOutcome.ok text conf)
    (hclock : o.startMs ≤ o.endMs) :
    ∃ r ∈ t, r.id = job.id ∧
      (process_once t max_retries o).2.find? (fun x => x.id = job.id)
        = some { r with
                  status := Status.completed
                  result := some { ocrText := text
                                   extractedItems := []
                                   confidence := conf
                                   flaggedFields := []
                                   processingTime :=
                                     (o.endMs : Int) - (o.startMs : Int)
                                   aiParsingUsed := false }
                  processing_time :=
                    some ((o.endMs : Int) - (o.startMs : Int))
                  completed_at := some o.now } ∧
      0 ≤ (o.endMs : Int) - (o.startMs : Int) := by
  obtain ⟨r, hr, hq, hjob, hmin, ht'⟩ := try_claim_eq_some h
  have hid : job.id = r.id := by rw [hjob]
  have hfind : t.find? (fun x => x.id = r.id) = some r :=
    find?_eq_of_mem_nodup hn hr
  have hfull : (process_once t max_retries o).2
      = mark_completed t₁ job.id text ((o.endMs : Int) - (o.startMs : Int))
          conf o.now := by
    simp only [process_once, h, ho]
  refine ⟨r, hr, hid.symm, ?_, by omega⟩
  rw [hfull, hid, ht']
  have h2 := find?_mark_completed text ((o.endMs : Int) - (o.startMs : Int))
    conf o.now (find?_claim_update hfind)
  exact h2

/-- Concrete one-row queued table for the C6 witness. -/
def c6Table : Table :=
  [{ id := "n1", user_id := "u1", image_url := "url", image_hash := "h",
     status := Status.queued, retry_count := some 2, result := none,
     error_message := none, processing_time := none, created_at := 4,
     completed_at := none }]

/-- The view returned by claiming `c6Table`. -/
def c6Job : OCRJobRow :=
  { id := "n1", user_id := "u1", image_url := "url", image_hash := "h",
    status := Status.processing, retry_count := 2 }

/-- `c6Table` after the claim update. -/
def c6Claimed : Table :=
  [{ id := "n1", user_id := "u1", image_url := "url", image_hash := "h",
     status := Status.processing, retry_count := some 2, result := none,
     error_message := none, processing_time := none, created_at := 4,
     completed_at := none }]

/-- Success oracle: extraction yields "menu" with confidence 9/10; clock
reads 100 then 160, `NOW()` is 42. -/
def c6Oracle : ProcessOracle :=
  { outcome := OcrOutcome.ok "menu" (9/10), settlementFails := false,
    startMs := 100, endMs := 160, now := 42 }

/-- Witness for C6 at the concrete success oracle. -/
theorem success_persists_completed_result_witness :
    ∃ r ∈ c6Table, r.id = c6Job.id ∧
      (process_once c6Table 3 c6Oracle).2.find? (fun x => x.id = c6Job.id)
        = some { r with
                  status := Status.completed
                  result := some { ocrText := "menu"
                                   extractedItems := []
                                   confidence := (9/10 : Rat)
                                   flaggedFields := []
                                   processingTime :=
                                     (c6Oracle.endMs : Int)
                                       - (c6Oracle.startMs : Int)
                                   aiParsingUsed := false }
                  processing_time :=
                    some ((c6Oracle.endMs : Int) - (c6Oracle.startMs : Int))
                  completed_at := some c6Oracle.now } ∧
      0 ≤ (c6Oracle.endMs : Int) - (c6Oracle.startMs : Int) :=
  success_persists_completed_result c6Table 3 c6Oracle c6Job c6Claimed
    "menu" (9/10) (by decide) (by decide) rfl (by decide)

/-- Claim C7: `mark_failed` persists the message truncated to at most
2000 code points — a longer message is cut to exactly its first 2000
units, a message of at most 2000 units is stored unchanged. -/
theorem mark_failed_truncates_message
    (t : Table) (jid : String) (msg : List Char) (r : JobRow)
    (hfind : t.find? (fun x => x.id = jid) = some r) :
    (mark_failed t jid msg).find? (fun x => x.id = jid)
      = some { r with status := Status.failed,
                      error_message := some (msg.take 2000) } ∧
    (msg.take 2000).length = min 2000 msg.length ∧
    (msg.length ≤ 2000 → msg.take 2000 = msg) ∧
    (∀ i : Nat, i < 2000 → (msg.take 2000)[i]? = msg[i]?) := by
  refine ⟨?_, List.length_take .., fun hle => List.take_of_length_le hle,
    fun i hi => List.getElem?_take_of_lt hi⟩
  simp only [mark_failed]
  exact find?_updateRow_self
    (fun x => { x with status := Status.failed,
                       error_message := some (msg.take 2000) })
    (fun _ => rfl) hfind

/-- Concrete row for the C7 witness. -/
def c7Table : Table :=
  [{ id := "p1", user_id := "u1", image_url := "url", image_hash := "h",
     status := Status.processing, retry_count := some 3, result := none,
     error_message := none, processing_time := none, created_at := 0,
     completed_at := none }]

/-- Witness for C7 with a short (two-character) message. -/
theorem mark_failed_truncates_message_witness :
    (mark_failed c7Table "p1" ['a', 'b']).find? (fun x => x.id = "p1")
      = some { id := "p1", user_id := "u1", image_url := "url",
               image_hash := "h", status := Status.failed,
               retry_count := some 3, result := none,
               error_message := some (List.take 2000 ['a', 'b']),
               processing_time := none, created_at := 0,
               completed_at := none } ∧
    (List.take 2000 ['a', 'b']).length = min 2000 (['a', 'b'] : List Char).length ∧
    ((['a', 'b'] : List Char).length ≤ 2000 →
      List.take 2000 ['a', 'b'] = ['a', 'b']) ∧
    (∀ i : Nat, i < 2000 →
      (List.take 2000 ['a', 'b'])[i]? = (['a', 'b'] : List Char)[i]?) :=
  mark_failed_truncates_message c7Table "p1" ['a', 'b']
    { id := "p1", user_id := "u1", image_url := "url", image_hash := "h",
      status := Status.processing, retry_count := some 3, result := none,
      error_message := none, processing_time := none, created_at := 0,
      completed_at := none }
    (by decide)

/-- Claim C9: `requeue_job` changes only the status of the rows with the
given id (processing back to queued) and leaves every other field — in
particular `created_at` and `retry_count` — untouched, so after a requeue
the claim step still orders the job by its original `created_at`: if that
timestamp is strictly the oldest among queued rows, the next claim picks
this very job. -/
theorem requeue_changes_only_status
    (t : Table) (jid : String) (r : JobRow)
    (hfind : t.find? (fun x => x.id = jid) = some r)
    (_hst : r.status = Status.processing) :
    (requeue_job t jid).find? (fun x => x.id = jid)
      = some { r with status := Status.queued } ∧
    (∀ q ∈ t, q.id ≠ jid → q ∈ requeue_job t jid) ∧
    (requeue_job t jid).map JobRow.created_at = t.map JobRow.created_at ∧
    ((∀ q ∈ requeue_job t jid, q.status = Status.queued →
        q ≠ { r with status := Status.queued } →
        r.created_at < q.created_at) →
      (try_claim_queued_job (requeue_job t jid)).1
        = some { id := r.id, user_id := r.user_id, image_url := r.image_url,
                 image_hash := r.image_hash, status := Status.processing,
                 retry_count := r.retry_count.getD 0 }) := by
  have hfq : (requeue_job t jid).find? (fun x => x.id = jid)
      = some { r with status := Status.queued } := by
    simp only [requeue_job]
    exact find?_updateRow_self (fun x => { x with status := Status.queued })
      (fun _ => rfl) hfind
  refine ⟨hfq, ?_, ?_, ?_⟩
  · intro q hqt hqne
    have hmm := List.mem_map_of_mem
      (fun x => if x.id = jid then { x with status := Status.queued } else x)
      hqt
    simpa [requeue_job, updateRow, hqne] using hmm
  · simp only [requeue_job]
    unfold updateRow
    rw [List.map_map]
    refine List.map_congr_left fun q _ => ?_
    by_cases hq : q.id = jid <;> simp [hq]
  · intro hstrict
    have hmemq : ({ r with status := Status.queued } : JobRow)
        ∈ requeue_job t jid := List.mem_of_find?_eq_some hfq
    have hmemf : ({ r with status := Status.queued } : JobRow)
        ∈ (requeue_job t jid).filter (fun x => x.status = Status.queued) :=
      List.mem_filter.mpr ⟨hmemq, by simp⟩
    cases hm : minByCreated
        ((requeue_job t jid).filter fun x => x.status = Status.queued) with
    | none =>
      rw [minByCreated_eq_none_iff.mp hm] at hmemf
      exact absurd hmemf (by simp)
    | some b =>
      have hb : b = { r with status := Status.queued } := by
        refine minByCreated_eq_of_strict_min hm hmemf ?_
        intro q hqf hqne
        have hqm := List.mem_filter.mp hqf
        exact hstrict q hqm.1 (by simpa using hqm.2) hqne
      simp only [try_claim_queued_job, hm, hb]

/-- Concrete two-row table for the C9 witness: a processing row (the one
requeued) and a younger queued row. -/
def c9Table : Table :=
  [{ id := "q1", user_id := "u1", image_url := "url", image_hash := "h",
     status := Status.processing, retry_count := some 1, result := none,
     error_message := none, processing_time := none, created_at := 3,
     completed_at := none },
   { id := "q2", user_id := "u2", image_url := "url2", image_hash := "h2",
     status := Status.queued, retry_count := none, result := none,
     error_message := none, processing_time := none, created_at := 9,
     completed_at := none }]

/-- The requeued row of `c9Table`. -/
def c9Row : JobRow :=
  { id := "q1", user_id := "u1", image_url := "url", image_hash := "h",
    status := Status.processing, retry_count := some 1, result := none,
    error_message := none, processing_time := none, created_at := 3,
    completed_at := none }

/-- Witness for C9: requeueing `q1` keeps its fields and, being the
strictly oldest queued row, it is the next claim's pick. -/
theorem requeue_changes_only_status_witness :
    (requeue_job c9Table "q1").find? (fun x => x.id = "q1")
      = some { c9Row with status := Status.queued } ∧
    (∀ q ∈ c9Table, q.id ≠ "q1" → q ∈ requeue_job c9Table "q1") ∧
    (requeue_job c9Table "q1").map JobRow.created_at
      = c9Table.map JobRow.created_at ∧
    ((∀ q ∈ requeue_job c9Table "q1", q.status = Status.queued →
        q ≠ { c9Row with status := Status.queued } →
        c9Row.created_at < q.created_at) →
      (try_claim_queued_job (requeue_job c9Table "q1")).1
        = some { id := c9Row.id, user_id := c9Row.user_id,
                 image_url := c9Row.image_url, image_hash := c9Row.image_hash,
                 status := Status.processing,
                 retry_count := c9Row.retry_count.getD 0 }) :=
  requeue_changes_only_status c9Table "q1" c9Row (by decide) rfl

/-- Claim C5 counterexample: with `poll_interval_ms = 300` and
`use_notify = False`, the toggle variant's sleep-only poll path waits
exactly 300 ms — below the 1000 ms floor the claim asserts for poll
(sleep-only) paths. -/
theorem poll_floor_counterexample :
    listen_for_jobs_toggle 300 false SubOutcome.noNotify = 300 ∧
    250 ≤ listen_for_jobs_toggle 300 false SubOutcome.noNotify ∧
    ¬(1000 ≤ listen_for_jobs_toggle 300 false SubOutcome.noNotify) := by
  decide

/-- Claim C5 as amended: the toggle variant enforces a 250 ms floor on
both its notify-fallback sleep and its sleep-only poll path, while the
non-toggle (kiro) variant enforces a 1000 ms floor on its single
notification-wait timeout. -/
theorem wait_floors_by_variant (poll : Nat) (ev : SubOutcome) :
    250 ≤ listen_for_jobs_toggle poll true SubOutcome.listenRaises ∧
    250 ≤ listen_for_jobs_toggle poll false ev ∧
    listen_for_jobs_kiro poll SubOutcome.noNotify
      = Except.ok (max poll 1000) ∧
    1000 ≤ max poll 1000 := by
  refine ⟨?_, ?_, rfl, le_max_right poll 1000⟩
  · simp [listen_for_jobs_toggle]
  · simp [listen_for_jobs_toggle]

/-- Claim C8: in the canonical (toggle) wake channel, a failing notify
subscription never propagates: the call still returns, waiting exactly
the `max(poll_interval_ms, 250)` fallback sleep — the same wait as the
timeout-only poll mode — which is within the timeout bound. -/
theorem wait_survives_subscription_failure (poll : Nat) (ev : SubOutcome) :
    listen_for_jobs_toggle poll true SubOutcome.listenRaises
      = max poll 250 ∧
    listen_for_jobs_toggle poll true SubOutcome.listenRaises
      = listen_for_jobs_toggle poll false ev ∧
    listen_for_jobs_toggle poll true SubOutcome.listenRaises
      ≤ max poll 250 := by
  refine ⟨rfl, ?_, ?_⟩
  · simp [listen_for_jobs_toggle]
  · simp [listen_for_jobs_toggle]

/-- An `or`-chain over optional strings is empty exactly when every link
is absent or empty. -/
theorem firstNonEmpty_eq_empty_iff (xs : List (Option String)) :
    firstNonEmpty xs = "" ↔ ∀ x ∈ xs, x.getD "" = "" := by
  induction xs with
  | nil => simp [firstNonEmpty]
  | cons x rest ih =>
    cases x with
    | none => simp [firstNonEmpty, ih]
    | some s =>
      by_cases hs : s = ""
      · subst hs
        simp [firstNonEmpty, ih]
      · simp only [firstNonEmpty, if_neg hs]
        constructor
        · intro h
          exact absurd h hs
        · intro h
          exact absurd (by simpa using h (some s) (List.mem_cons_self _ _)) hs

/-- Claim C10: non-integer values for the numeric settings silently fall
back to the built-in defaults and startup still succeeds; `load_config`
raises exactly when the store connection string is absent or empty (for
the toggle variant: when all three candidate variables are). -/
theorem load_config_defaults_on_invalid_ints (env : Env) :
    ((load_config env).isOk = false ↔ (env "DATABASE_URL").getD "" = "") ∧
    (∀ cfg, load_config env = Except.ok cfg →
      cfg.database_url = (env "DATABASE_URL").getD "" ∧
      (∀ v, env "WORKER_POLL_INTERVAL_MS" = some v → pyInt v = none →
        cfg.poll_interval_ms = 5000) ∧
      (∀ v, env "WORKER_MAX_RETRIES" = some v → pyInt v = none →
        cfg.max_retries = 3) ∧
      (∀ v, env "WORKER_PROCESSING_TIMEOUT_MS" = some v → pyInt v = none →
        cfg.processing_timeout_ms = 60000)) ∧
    ((load_config_toggle env).isOk = false ↔
      ((env "DATABASE_URL").getD "" = "" ∧
       (env "SUPABASE_DB_URL").getD "" = "" ∧
       (env "POSTGRES_URL").getD "" = "")) ∧
    (∀ cfg, load_config_toggle env = Except.ok cfg →
      (∀ v, env "WORKER_POLL_INTERVAL_MS" = some v → pyInt v = none →
        cfg.poll_interval_ms = 5000) ∧
      (∀ v, env "WORKER_MAX_RETRIES" = some v → pyInt v = none →
        cfg.max_retries = 3) ∧
      (∀ v, env "WORKER_PROCESSING_TIMEOUT_MS" = some v → pyInt v = none →
        cfg.processing_timeout_ms = 60000)) := by
  refine ⟨?_, ?_, ?_, ?_⟩
  · by_cases hdb : (env "DATABASE_URL").getD "" = "" <;>
      simp [load_config, hdb, Except.isOk, Except.toBool]
  · intro cfg hok
    by_cases hdb : (env "DATABASE_URL").getD "" = ""
    · simp [load_config, hdb] at hok
    · simp only [load_config, if_neg hdb, Except.ok.injEq] at hok
      subst hok
      refine ⟨rfl, ?_, ?_, ?_⟩ <;>
        · intro v hv hpv
          simp [pyGetInt, hv, hpv]
  · have hiff := firstNonEmpty_eq_empty_iff
      [env "DATABASE_URL", env "SUPABASE_DB_URL", env "POSTGRES_URL"]
    by_cases hdb : firstNonEmpty
        [env "DATABASE_URL", env "SUPABASE_DB_URL", env "POSTGRES_URL"] = ""
    · rw [hiff] at hdb
      simp only [load_config_toggle]
      rw [if_pos (hiff.mpr hdb)]
      simp only [Except.isOk, Except.toBool]
      constructor
      · intro _
        exact ⟨hdb _ (by simp), hdb _ (by simp), hdb _ (by simp)⟩
      · intro _
        trivial
    · simp only [load_config_toggle, if_neg hdb, Except.isOk, Except.toBool]
      constructor
      · intro h
        exact absurd h (by simp)
      · intro h
        exact absurd (hiff.mpr (by simpa using h)) hdb
  · intro cfg hok
    by_cases hdb : firstNonEmpty
        [env "DATABASE_URL", env "SUPABASE_DB_URL", env "POSTGRES_URL"] = ""
    · simp [load_config_toggle, hdb] at hok
    · simp only [load_config_toggle, if_neg hdb, Except.ok.injEq] at hok
      subst hok
      refine ⟨?_, ?_, ?_⟩ <;>
        · intro v hv hpv
          simp [pyGetInt, hv, hpv]

/-- Concrete environment for the C10 witness: a valid connection string
and garbage in every numeric variable. -/
def c10Env : Env := fun k =>
  if k = "DATABASE_URL" then some "postgres://x"
  else if k = "WORKER_POLL_INTERVAL_MS" then some "abc"
  else if k = "WORKER_MAX_RETRIES" then some "3x"
  else if k = "WORKER_PROCESSING_TIMEOUT_MS" then some "12 34"
  else none

/-- The configuration `load_config` produces from `c10Env`. -/
def c10Config : WorkerConfig :=
  { database_url := "postgres://x", poll_interval_ms := 5000,
    max_retries := 3, processing_timeout_ms := 60000 }

/-- Witness for C10: startup succeeds on `c10Env` and every invalid
numeric value falls back to its default. -/
theorem load_config_defaults_on_invalid_ints_witness :
    (load_config c10Env).isOk = true ∧
    c10Config.poll_interval_ms = 5000 ∧
    c10Config.max_retries = 3 ∧
    c10Config.processing_timeout_ms = 60000 := by
  have h := load_config_defaults_on_invalid_ints c10Env
  have hok : load_config c10Env = Except.ok c10Config := by rfl
  refine ⟨?_, ?_, ?_, ?_⟩
  · cases hb : (load_config c10Env).isOk with
    | false => exact absurd (h.1.mp hb) (by decide)
    | true => rfl
  · exact (h.2.1 c10Config hok).2.1 "abc" (by decide) (by decide)
  · exact (h.2.1 c10Config hok).2.2.1 "3x" (by decide) (by decide)
  · exact (h.2.1 c10Config hok).2.2.2 "12 34" (by decide) (by decide)

end OcrWorker
